import Mathlib

/-! Verification of the pocket-billiards core (physics engine, simulation
driver, table/screen transform, store slices) against its specification.

The TypeScript source is embedded shallowly: machine numbers become exact
rationals, the mutating functions become pure functions returning updated
records, and the one fallible operation (matrix inversion) returns an
Option.  The source computes a speed as a square root and compares it with
a nonnegative threshold; the embedding compares squared magnitudes, which
is equivalent because both sides are nonnegative and squaring is monotone
on nonnegatives. -/

namespace Billiards

/-- 2D point/vector with rational coordinates (source: { x, y } objects). -/
structure Vec2 where
  x : ℚ
  y : ℚ
deriving DecidableEq

/-- Ball kind (source: BallType in the ball slice); render-only, never read
by physics. -/
inductive BallType where
  | cue
  | solid
  | stripe
  | eight
deriving DecidableEq

/-- Ball record (source: Ball in the ball slice). -/
structure Ball where
  id : ℤ
  type : BallType
  position : Vec2
  velocity : Vec2
  active : Bool
  radius : ℚ
deriving DecidableEq

/-- Pocket record (source: Pocket in the table slice). -/
structure Pocket where
  x : ℚ
  y : ℚ
  radius : ℚ
deriving DecidableEq

/-- Physics constants (source: the physics module's exported constants). -/
def PHYSICS_FPS : ℚ := 60

def PHYSICS_TIMESTEP : ℚ := 1 / PHYSICS_FPS

def FRICTION_COEFFICIENT : ℚ := 2

def VELOCITY_THRESHOLD : ℚ := 1

def MAX_SHOT_VELOCITY : ℚ := 500

/-- Squared magnitude of a vector.  The source computes
speed = sqrt(v.x ** 2 + v.y ** 2) and only ever compares it with the
nonnegative VELOCITY_THRESHOLD; the embedding keeps the square. -/
def speedSquared (v : Vec2) : ℚ := v.x ^ 2 + v.y ^ 2

/-- One integration step for a single ball (source: updateBallPhysics).
The source's test speed < VELOCITY_THRESHOLD is embedded as
speedSquared < VELOCITY_THRESHOLD ^ 2, equivalent since both speeds are
nonnegative. -/
def updateBallPhysics (ball : Ball) (dt : ℚ) : Ball :=
  if speedSquared ball.velocity < VELOCITY_THRESHOLD ^ 2 then
    { ball with velocity := ⟨0, 0⟩ }
  else
    let decayFactor := 1 - FRICTION_COEFFICIENT * dt
    { ball with
      position := ⟨ball.position.x + ball.velocity.x * dt,
                   ball.position.y + ball.velocity.y * dt⟩,
      velocity := ⟨ball.velocity.x * decayFactor,
                   ball.velocity.y * decayFactor⟩ }

/-- Pocket capture test (source: checkPocketCollision): true iff the squared
center-to-center distance is at most the squared pocket radius. -/
def checkPocketCollision (ball : Ball) (pocket : Pocket) : Bool :=
  let dx := ball.position.x - pocket.x
  let dy := ball.position.y - pocket.y
  let distanceSquared := dx * dx + dy * dy
  let pocketRadiusSquared := pocket.radius * pocket.radius
  decide (distanceSquared ≤ pocketRadiusSquared)

/-- Rail reflection (source: handleRailCollisions): each axis is clamped to
[radius, dimension - radius] and the matching velocity component negated,
the x axis first, then the y axis, exactly as the two if/else-if blocks in
the source. -/
def handleRailCollisions (ball : Ball) (tableWidth tableHeight : ℚ) : Ball :=
  let minX := ball.radius
  let maxX := tableWidth - ball.radius
  let minY := ball.radius
  let maxY := tableHeight - ball.radius
  let b1 :=
    if ball.position.x < minX then
      { ball with position := ⟨minX, ball.position.y⟩,
                  velocity := ⟨-ball.velocity.x, ball.velocity.y⟩ }
    else if ball.position.x > maxX then
      { ball with position := ⟨maxX, ball.position.y⟩,
                  velocity := ⟨-ball.velocity.x, ball.velocity.y⟩ }
    else ball
  if b1.position.y < minY then
    { b1 with position := ⟨b1.position.x, minY⟩,
              velocity := ⟨b1.velocity.x, -b1.velocity.y⟩ }
  else if b1.position.y > maxY then
    { b1 with position := ⟨b1.position.x, maxY⟩,
              velocity := ⟨b1.velocity.x, -b1.velocity.y⟩ }
  else b1

/-- Motion test (source: anyBallMoving): some active ball has a velocity
component that is exactly nonzero. -/
def anyBallMoving (balls : List Ball) : Bool :=
  balls.any fun b =>
    b.active && (decide (b.velocity.x ≠ 0) || decide (b.velocity.y ≠ 0))

/-- Per-ball loop body shared verbatim by runPhysicsSimulation and
PhysicsEngine.step: an active ball is integrated, rail-resolved, then
tested against the pockets in order; the first hit (List.find?) zeroes the
velocity, clears the active flag and reports the ball id; an inactive ball
is skipped entirely. -/
def processBall (tableWidth tableHeight : ℚ) (pockets : List Pocket)
    (ball : Ball) : Ball × Option ℤ :=
  if ball.active then
    let b1 := updateBallPhysics ball PHYSICS_TIMESTEP
    let b2 := handleRailCollisions b1 tableWidth tableHeight
    match pockets.find? (fun p => checkPocketCollision b2 p) with
    | some _ => ({ b2 with active := false, velocity := ⟨0, 0⟩ }, some b2.id)
    | none => (b2, none)
  else (ball, none)

/-- One iteration of the runPhysicsSimulation while-loop: every ball is
processed in order and the ids of the balls captured this iteration are
collected in order. -/
def simStep (tableWidth tableHeight : ℚ) (pockets : List Pocket) :
    List Ball → List Ball × List ℤ
  | [] => ([], [])
  | ball :: rest =>
    let pr := processBall tableWidth tableHeight pockets ball
    let sr := simStep tableWidth tableHeight pockets rest
    (pr.1 :: sr.1, match pr.2 with
      | some i => i :: sr.2
      | none => sr.2)

/-- Result record of runPhysicsSimulation. -/
structure SimResult where
  balls : List Ball
  pocketedBalls : List ℤ
  iterations : ℕ
deriving DecidableEq

/-- Input record of runPhysicsSimulation (source: SimulationState). -/
structure SimulationState where
  balls : List Ball
  pockets : List Pocket
  tableWidth : ℚ
  tableHeight : ℚ

/-- The source's while-loop: while some ball is moving and the iteration
count is below maxIterations, run one simStep, append the captured ids and
count the iteration. -/
def runPhysicsAux (tableWidth tableHeight : ℚ) (pockets : List Pocket)
    (maxIterations : ℕ) (balls : List Ball) (pocketedBalls : List ℤ)
    (iterations : ℕ) : SimResult :=
  if h : anyBallMoving balls = true ∧ iterations < maxIterations then
    let sr := simStep tableWidth tableHeight pockets balls
    runPhysicsAux tableWidth tableHeight pockets maxIterations sr.1
      (pocketedBalls ++ sr.2) (iterations + 1)
  else
    ⟨balls, pocketedBalls, iterations⟩
termination_by maxIterations - iterations
decreasing_by
  obtain ⟨_, h2⟩ := h
  omega

/-- Batch simulation driver (source: runPhysicsSimulation; the source's
default for maxIterations is 10000). -/
def runPhysicsSimulation (state : SimulationState) (maxIterations : ℕ) :
    SimResult :=
  runPhysicsAux state.tableWidth state.tableHeight state.pockets
    maxIterations state.balls [] 0

/-- Ball slice state (source: BallState). -/
structure BallState where
  balls : List Ball
deriving DecidableEq

/-- Shared body of the ball-slice reducers: the source finds the first ball
whose id matches (Array.prototype.find) and mutates it in place; a missing
id touches nothing. -/
def updateFirstBall (id : ℤ) (f : Ball → Ball) : List Ball → List Ball
  | [] => []
  | b :: rest =>
    if b.id = id then f b :: rest else b :: updateFirstBall id f rest

/-- Reducer setBallPosition from the ball slice. -/
def setBallPosition (id : ℤ) (position : Vec2) (s : BallState) : BallState :=
  ⟨updateFirstBall id (fun b => { b with position := position }) s.balls⟩

/-- Reducer setBallVelocity from the ball slice. -/
def setBallVelocity (id : ℤ) (velocity : Vec2) (s : BallState) : BallState :=
  ⟨updateFirstBall id (fun b => { b with velocity := velocity }) s.balls⟩

/-- Reducer setBallActive from the ball slice. -/
def setBallActive (id : ℤ) (active : Bool) (s : BallState) : BallState :=
  ⟨updateFirstBall id (fun b => { b with active := active }) s.balls⟩

/-- Store snapshot read by PhysicsEngine.step: the ball list, the table
dimensions' pockets/width/height, and the physics running flag. -/
structure StoreState where
  balls : List Ball
  pockets : List Pocket
  width : ℚ
  height : ℚ
  physicsRunning : Bool
deriving DecidableEq

/-- The dispatches PhysicsEngine.step performs for one snapshot ball: skip
if inactive; otherwise compute the physics update on a copy and dispatch
setBallPosition, setBallVelocity and, when the copy was captured,
setBallActive false, each locating the ball by id in the store's current
list. -/
def stepBallDispatches (width height : ℚ) (pockets : List Pocket)
    (ball : Ball) (balls : List Ball) : List Ball :=
  if ball.active then
    let pr := processBall width height pockets ball
    let balls1 := updateFirstBall ball.id
      (fun b => { b with position := pr.1.position }) balls
    let balls2 := updateFirstBall ball.id
      (fun b => { b with velocity := pr.1.velocity }) balls1
    if pr.1.active then balls2
    else updateFirstBall ball.id (fun b => { b with active := false }) balls2
  else balls

/-- The for-loop of PhysicsEngine.step: iterate over the snapshot ball list
(first argument) while the dispatches accumulate on the store's current
ball list (second argument). -/
def stepLoop (width height : ℚ) (pockets : List Pocket) :
    List Ball → List Ball → List Ball
  | [], current => current
  | ball :: rest, current =>
    stepLoop width height pockets rest
      (stepBallDispatches width height pockets ball current)

/-- PhysicsEngine.step: if no ball is moving, clear the running flag and
report false; otherwise run the per-ball loop over the snapshot and report
true. -/
def step (s : StoreState) : StoreState × Bool :=
  if anyBallMoving s.balls = false then
    ({ s with physicsRunning := false }, false)
  else
    ({ s with balls := stepLoop s.width s.height s.pockets s.balls s.balls },
      true)

/-- updateBallPhysics only writes position and velocity. -/
theorem updateBallPhysics_fields (b : Ball) (dt : ℚ) :
    (updateBallPhysics b dt).id = b.id ∧
    (updateBallPhysics b dt).type = b.type ∧
    (updateBallPhysics b dt).active = b.active ∧
    (updateBallPhysics b dt).radius = b.radius := by
  unfold updateBallPhysics
  split_ifs <;> exact ⟨rfl, rfl, rfl, rfl⟩

/-- handleRailCollisions only writes position and velocity. -/
theorem handleRailCollisions_fields (b : Ball) (tw th : ℚ) :
    (handleRailCollisions b tw th).id = b.id ∧
    (handleRailCollisions b tw th).type = b.type ∧
    (handleRailCollisions b tw th).active = b.active ∧
    (handleRailCollisions b tw th).radius = b.radius := by
  simp only [handleRailCollisions]
  split_ifs <;> exact ⟨rfl, rfl, rfl, rfl⟩

/-- processBall leaves an inactive ball untouched and reports nothing. -/
theorem processBall_inactive (tw th : ℚ) (pk : List Pocket) (b : Ball)
    (h : b.active = false) : processBall tw th pk b = (b, none) := by
  unfold processBall
  rw [h]
  simp

/-- processBall never changes a ball's id, type or radius. -/
theorem processBall_fields (tw th : ℚ) (pk : List Pocket) (b : Ball) :
    (processBall tw th pk b).1.id = b.id ∧
    (processBall tw th pk b).1.type = b.type ∧
    (processBall tw th pk b).1.radius = b.radius := by
  have h1 := updateBallPhysics_fields b PHYSICS_TIMESTEP
  have h2 := handleRailCollisions_fields (updateBallPhysics b PHYSICS_TIMESTEP) tw th
  simp only [processBall]
  split_ifs with ha
  · cases hf : (pk.find? fun p =>
      checkPocketCollision (handleRailCollisions
        (updateBallPhysics b PHYSICS_TIMESTEP) tw th) p) <;>
      simp [hf, h1.1, h1.2.1, h1.2.2.2, h2.1, h2.2.1, h2.2.2.2]
  · exact ⟨rfl, rfl, rfl⟩

/-- A ball active after processBall was active before. -/
theorem processBall_active_mono (tw th : ℚ) (pk : List Pocket) (b : Ball)
    (h : (processBall tw th pk b).1.active = true) : b.active = true := by
  by_contra hb
  have hb' : b.active = false := by
    cases hab : b.active
    · rfl
    · exact absurd hab hb
  rw [processBall_inactive tw th pk b hb'] at h
  rw [hb'] at h
  exact Bool.false_ne_true h

/-- What a reported capture means: the emitted id is the ball's id, the
ball was active before the step, and it is inactive afterwards. -/
theorem processBall_emit (tw th : ℚ) (pk : List Pocket) (b : Ball) (i : ℤ)
    (h : (processBall tw th pk b).2 = some i) :
    i = b.id ∧ b.active = true ∧ (processBall tw th pk b).1.active = false := by
  have h1 := updateBallPhysics_fields b PHYSICS_TIMESTEP
  have h2 := handleRailCollisions_fields (updateBallPhysics b PHYSICS_TIMESTEP) tw th
  simp only [processBall] at h ⊢
  split_ifs at h ⊢ with ha
  · revert h
    cases hf : (pk.find? fun p =>
      checkPocketCollision (handleRailCollisions
        (updateBallPhysics b PHYSICS_TIMESTEP) tw th) p) with
    | none =>
      intro h
      exact Option.noConfusion h
    | some val =>
      intro h
      have h' : (handleRailCollisions
          (updateBallPhysics b PHYSICS_TIMESTEP) tw th).id = i :=
        Option.some.inj h
      refine ⟨?_, ha, rfl⟩
      rw [← h', h2.1, h1.1]

/-- simStep is processBall mapped over the balls, the captured ids being
collected in order by filterMap. -/
theorem simStep_eq (tw th : ℚ) (pk : List Pocket) (balls : List Ball) :
    simStep tw th pk balls =
      (balls.map (fun b => (processBall tw th pk b).1),
       balls.filterMap (fun b => (processBall tw th pk b).2)) := by
  induction balls with
  | nil => rfl
  | cons b rest ih =>
    simp only [simStep, List.map_cons, List.filterMap_cons, ih]
    cases hp : (processBall tw th pk b).2 <;> simp [hp]

/-- anyBallMoving is false exactly when every active ball has exactly zero
velocity on both axes. -/
theorem anyBallMoving_eq_false_iff (balls : List Ball) :
    anyBallMoving balls = false ↔
      ∀ b ∈ balls, b.active = true → b.velocity.x = 0 ∧ b.velocity.y = 0 := by
  simp only [anyBallMoving, List.any_eq_false, Bool.and_eq_true,
    Bool.or_eq_true, decide_eq_true_eq, not_and, not_or, not_not]

/-- Loop bound for runPhysicsAux: the reported iteration count never
exceeds maxIterations, and on exit either the table is quiescent or the
count equals the bound. -/
theorem runPhysicsAux_bound (tw th : ℚ) (pk : List Pocket)
    (maxIterations : ℕ) :
    ∀ fuel balls pocketed iterations,
      maxIterations - iterations ≤ fuel → iterations ≤ maxIterations →
      (runPhysicsAux tw th pk maxIterations balls pocketed
        iterations).iterations ≤ maxIterations ∧
      (anyBallMoving (runPhysicsAux tw th pk maxIterations balls pocketed
          iterations).balls = false ∨
        (runPhysicsAux tw th pk maxIterations balls pocketed
          iterations).iterations = maxIterations) := by
  intro fuel
  induction fuel with
  | zero =>
    intro balls pocketed iterations hfuel hle
    have heq : iterations = maxIterations := by omega
    have hc : ¬ (anyBallMoving balls = true ∧ iterations < maxIterations) := by
      intro hcon
      omega
    rw [runPhysicsAux, dif_neg hc]
    exact ⟨hle, Or.inr heq⟩
  | succ fuel ih =>
    intro balls pocketed iterations hfuel hle
    by_cases hc : anyBallMoving balls = true ∧ iterations < maxIterations
    · rw [runPhysicsAux, dif_pos hc]
      exact ih _ _ _ (by omega) (by omega)
    · rw [runPhysicsAux, dif_neg hc]
      refine ⟨hle, ?_⟩
      by_cases hm : anyBallMoving balls = true
      · have hit : ¬ iterations < maxIterations := fun hlt => hc ⟨hm, hlt⟩
        exact Or.inr (show iterations = maxIterations by omega)
      · refine Or.inl ?_
        show anyBallMoving balls = false
        cases hab : anyBallMoving balls
        · rfl
        · exact absurd hab hm

/-- C7: runPhysicsSimulation is a while-loop guarded by
anyBallMoving && iterations < maxIterations; it performs at most
maxIterations iterations (the source defaults the bound to 10000), and on
return either no active ball has a nonzero velocity component (completion,
conjunct three spells the guard out) or the reported iteration count
equals maxIterations, so the caller can see truncation. -/
theorem C7_runPhysicsSimulation_bounded (state : SimulationState)
    (maxIterations : ℕ) :
    (runPhysicsSimulation state maxIterations).iterations ≤ maxIterations ∧
    (anyBallMoving (runPhysicsSimulation state maxIterations).balls = false ∨
      (runPhysicsSimulation state maxIterations).iterations = maxIterations) ∧
    (anyBallMoving (runPhysicsSimulation state maxIterations).balls = false ↔
      ∀ b ∈ (runPhysicsSimulation state maxIterations).balls,
        b.active = true → b.velocity.x = 0 ∧ b.velocity.y = 0) := by
  have h := runPhysicsAux_bound state.tableWidth state.tableHeight
    state.pockets maxIterations maxIterations state.balls [] 0
    (by omega) (Nat.zero_le _)
  exact ⟨h.1, h.2, anyBallMoving_eq_false_iff _⟩

/-- C1: one updateBallPhysics call with dt = PHYSICS_TIMESTEP = 1/60.  Below
threshold (squared speed < 1, i.e. speed < VELOCITY_THRESHOLD = 1) the
velocity becomes exactly (0,0) and the position is unchanged; the velocity
is (0,0) after the step if and only if that branch ran, so it is the only
code path that zeroes velocity.  Otherwise the position advances by the
pre-step velocity times dt, the velocity is scaled by
1 - FRICTION_COEFFICIENT * dt with FRICTION_COEFFICIENT = 2, the squared
magnitude strictly decreases (hence the magnitude strictly decreases, both
being nonnegative), and each velocity component keeps its strict sign. -/
theorem C1_updateBallPhysics_step (b : Ball) :
    (PHYSICS_TIMESTEP = 1 / 60 ∧ FRICTION_COEFFICIENT = 2) ∧
    (speedSquared b.velocity < 1 →
      (updateBallPhysics b PHYSICS_TIMESTEP).velocity = ⟨0, 0⟩ ∧
      (updateBallPhysics b PHYSICS_TIMESTEP).position = b.position) ∧
    ((updateBallPhysics b PHYSICS_TIMESTEP).velocity = ⟨0, 0⟩ ↔
      speedSquared b.velocity < 1) ∧
    (1 ≤ speedSquared b.velocity →
      (updateBallPhysics b PHYSICS_TIMESTEP).position =
        ⟨b.position.x + b.velocity.x * PHYSICS_TIMESTEP,
         b.position.y + b.velocity.y * PHYSICS_TIMESTEP⟩ ∧
      (updateBallPhysics b PHYSICS_TIMESTEP).velocity =
        ⟨b.velocity.x * (1 - FRICTION_COEFFICIENT * PHYSICS_TIMESTEP),
         b.velocity.y * (1 - FRICTION_COEFFICIENT * PHYSICS_TIMESTEP)⟩ ∧
      speedSquared (updateBallPhysics b PHYSICS_TIMESTEP).velocity <
        speedSquared b.velocity ∧
      (0 < b.velocity.x ↔ 0 < (updateBallPhysics b PHYSICS_TIMESTEP).velocity.x) ∧
      (b.velocity.x < 0 ↔ (updateBallPhysics b PHYSICS_TIMESTEP).velocity.x < 0) ∧
      (0 < b.velocity.y ↔ 0 < (updateBallPhysics b PHYSICS_TIMESTEP).velocity.y) ∧
      (b.velocity.y < 0 ↔ (updateBallPhysics b PHYSICS_TIMESTEP).velocity.y < 0)) := by
  have hdt : PHYSICS_TIMESTEP = 1 / 60 := by
    norm_num [PHYSICS_TIMESTEP, PHYSICS_FPS]
  have hth : VELOCITY_THRESHOLD ^ 2 = 1 := by norm_num [VELOCITY_THRESHOLD]
  refine ⟨⟨hdt, rfl⟩, ?_, ?_, ?_⟩
  · intro hlt
    simp [updateBallPhysics, hth, if_pos hlt]
  · constructor
    · intro hv
      by_contra hge
      push_neg at hge
      have h1 : ¬ speedSquared b.velocity < VELOCITY_THRESHOLD ^ 2 := by
        rw [hth]; exact not_lt.mpr hge
      simp only [updateBallPhysics, if_neg h1, Vec2.mk.injEq] at hv
      have hx : b.velocity.x = 0 := by
        have := hv.1
        have hf : (1 : ℚ) - FRICTION_COEFFICIENT * PHYSICS_TIMESTEP ≠ 0 := by
          rw [hdt]; norm_num [FRICTION_COEFFICIENT]
        exact (mul_eq_zero.mp this).resolve_right hf
      have hy : b.velocity.y = 0 := by
        have := hv.2
        have hf : (1 : ℚ) - FRICTION_COEFFICIENT * PHYSICS_TIMESTEP ≠ 0 := by
          rw [hdt]; norm_num [FRICTION_COEFFICIENT]
        exact (mul_eq_zero.mp this).resolve_right hf
      have : speedSquared b.velocity = 0 := by
        simp [speedSquared, hx, hy]
      linarith
    · intro hlt
      simp [updateBallPhysics, hth, if_pos hlt]
  · intro hge
    have h1 : ¬ speedSquared b.velocity < VELOCITY_THRESHOLD ^ 2 := by
      rw [hth]; exact not_lt.mpr hge
    simp only [updateBallPhysics, if_neg h1]
    have hfr : FRICTION_COEFFICIENT = 2 := rfl
    refine ⟨trivial, trivial, ?_, ?_, ?_, ?_, ?_⟩
    · have : speedSquared b.velocity > 0 := lt_of_lt_of_le one_pos hge
      simp only [speedSquared] at this ⊢
      rw [hdt, hfr]
      nlinarith [sq_nonneg b.velocity.x, sq_nonneg b.velocity.y]
    · rw [hdt, hfr]
      constructor
      · intro h; positivity
      · intro h; nlinarith
    · rw [hdt, hfr]
      constructor
      · intro h; nlinarith
      · intro h; nlinarith
    · rw [hdt, hfr]
      constructor
      · intro h; positivity
      · intro h; nlinarith
    · rw [hdt, hfr]
      constructor
      · intro h; nlinarith
      · intro h; nlinarith

/-- Witness for C1 at a concrete ball: position (100,100), velocity (30,0),
above the threshold.  One step moves the position by the pre-step velocity
times 1/60 and scales the velocity by 29/30. -/
theorem C1_updateBallPhysics_step_witness :
    (1 : ℚ) ≤ speedSquared ⟨30, 0⟩ ∧
    (updateBallPhysics ⟨0, BallType.cue, ⟨100, 100⟩, ⟨30, 0⟩, true, 45 / 4⟩
        PHYSICS_TIMESTEP).position = ⟨201 / 2, 100⟩ ∧
    (updateBallPhysics ⟨0, BallType.cue, ⟨100, 100⟩, ⟨30, 0⟩, true, 45 / 4⟩
        PHYSICS_TIMESTEP).velocity = ⟨29, 0⟩ := by
  have hge : (1 : ℚ) ≤ speedSquared ⟨30, 0⟩ := by norm_num [speedSquared]
  have h :=
    (C1_updateBallPhysics_step
      ⟨0, BallType.cue, ⟨100, 100⟩, ⟨30, 0⟩, true, 45 / 4⟩).2.2.2 hge
  refine ⟨hge, ?_, ?_⟩
  · rw [h.1]
    norm_num [PHYSICS_TIMESTEP, PHYSICS_FPS]
  · rw [h.2.1]
    norm_num [PHYSICS_TIMESTEP, PHYSICS_FPS, FRICTION_COEFFICIENT]

/-- C3: handleRailCollisions treats the two axes independently: on the x
axis the center is clamped to [radius, tableWidth - radius] and the x
velocity negated exactly when the pre-clamp x position lay outside that
range, and likewise on the y axis (the y-axis conditions and outputs are
stated purely in terms of the incoming y components, which is the axis
independence and lets both components reflect in one step); whenever the
range is nonempty the resulting coordinate is the clamp of the incoming
one; a ball inside both ranges is returned unchanged, and id, type, active
and radius are never touched. -/
theorem C3_handleRailCollisions_spec (ball : Ball) (tableWidth tableHeight : ℚ) :
    (ball.position.x < ball.radius →
      (handleRailCollisions ball tableWidth tableHeight).position.x = ball.radius ∧
      (handleRailCollisions ball tableWidth tableHeight).velocity.x = -ball.velocity.x) ∧
    (¬ ball.position.x < ball.radius → ball.position.x > tableWidth - ball.radius →
      (handleRailCollisions ball tableWidth tableHeight).position.x = tableWidth - ball.radius ∧
      (handleRailCollisions ball tableWidth tableHeight).velocity.x = -ball.velocity.x) ∧
    (ball.radius ≤ ball.position.x → ball.position.x ≤ tableWidth - ball.radius →
      (handleRailCollisions ball tableWidth tableHeight).position.x = ball.position.x ∧
      (handleRailCollisions ball tableWidth tableHeight).velocity.x = ball.velocity.x) ∧
    (ball.position.y < ball.radius →
      (handleRailCollisions ball tableWidth tableHeight).position.y = ball.radius ∧
      (handleRailCollisions ball tableWidth tableHeight).velocity.y = -ball.velocity.y) ∧
    (¬ ball.position.y < ball.radius → ball.position.y > tableHeight - ball.radius →
      (handleRailCollisions ball tableWidth tableHeight).position.y = tableHeight - ball.radius ∧
      (handleRailCollisions ball tableWidth tableHeight).velocity.y = -ball.velocity.y) ∧
    (ball.radius ≤ ball.position.y → ball.position.y ≤ tableHeight - ball.radius →
      (handleRailCollisions ball tableWidth tableHeight).position.y = ball.position.y ∧
      (handleRailCollisions ball tableWidth tableHeight).velocity.y = ball.velocity.y) ∧
    (ball.radius ≤ tableWidth - ball.radius →
      (handleRailCollisions ball tableWidth tableHeight).position.x =
        max ball.radius (min (tableWidth - ball.radius) ball.position.x)) ∧
    (ball.radius ≤ tableHeight - ball.radius →
      (handleRailCollisions ball tableWidth tableHeight).position.y =
        max ball.radius (min (tableHeight - ball.radius) ball.position.y)) ∧
    (ball.radius ≤ ball.position.x → ball.position.x ≤ tableWidth - ball.radius →
      ball.radius ≤ ball.position.y → ball.position.y ≤ tableHeight - ball.radius →
      handleRailCollisions ball tableWidth tableHeight = ball) ∧
    ((handleRailCollisions ball tableWidth tableHeight).id = ball.id ∧
     (handleRailCollisions ball tableWidth tableHeight).type = ball.type ∧
     (handleRailCollisions ball tableWidth tableHeight).active = ball.active ∧
     (handleRailCollisions ball tableWidth tableHeight).radius = ball.radius) := by
  refine ⟨?_, ?_, ?_, ?_, ?_, ?_, ?_, ?_, ?_, ?_⟩
  · intro hx
    constructor <;>
      · simp only [handleRailCollisions, if_pos hx]
        split_ifs <;> rfl
  · intro hx1 hx2
    constructor <;>
      · simp only [handleRailCollisions, if_neg hx1, if_pos hx2]
        split_ifs <;> rfl
  · intro hx1 hx2
    have h1 : ¬ ball.position.x < ball.radius := not_lt.mpr hx1
    have h2 : ¬ ball.position.x > tableWidth - ball.radius := not_lt.mpr hx2
    constructor <;>
      · simp only [handleRailCollisions, if_neg h1, if_neg h2]
        split_ifs <;> rfl
  · intro hy
    by_cases hx1 : ball.position.x < ball.radius
    · constructor <;> simp only [handleRailCollisions, if_pos hx1, if_pos hy]
    · by_cases hx2 : ball.position.x > tableWidth - ball.radius
      · constructor <;>
          simp only [handleRailCollisions, if_neg hx1, if_pos hx2, if_pos hy]
      · constructor <;>
          simp only [handleRailCollisions, if_neg hx1, if_neg hx2, if_pos hy]
  · intro hy1 hy2
    by_cases hx1 : ball.position.x < ball.radius
    · constructor <;>
        simp only [handleRailCollisions, if_pos hx1, if_neg hy1, if_pos hy2]
    · by_cases hx2 : ball.position.x > tableWidth - ball.radius
      · constructor <;>
          simp only [handleRailCollisions, if_neg hx1, if_pos hx2, if_neg hy1,
            if_pos hy2]
      · constructor <;>
          simp only [handleRailCollisions, if_neg hx1, if_neg hx2, if_neg hy1,
            if_pos hy2]
  · intro hy1 hy2
    have g1 : ¬ ball.position.y < ball.radius := not_lt.mpr hy1
    have g2 : ¬ ball.position.y > tableHeight - ball.radius := not_lt.mpr hy2
    by_cases hx1 : ball.position.x < ball.radius
    · constructor <;>
        simp only [handleRailCollisions, if_pos hx1, if_neg g1, if_neg g2]
    · by_cases hx2 : ball.position.x > tableWidth - ball.radius
      · constructor <;>
          simp only [handleRailCollisions, if_neg hx1, if_pos hx2, if_neg g1,
            if_neg g2]
      · constructor <;>
          simp only [handleRailCollisions, if_neg hx1, if_neg hx2, if_neg g1,
            if_neg g2]
  · intro h
    by_cases hx1 : ball.position.x < ball.radius
    · have e1 : min (tableWidth - ball.radius) ball.position.x = ball.position.x :=
        min_eq_right (le_of_lt (lt_of_lt_of_le hx1 h))
      have e2 : max ball.radius ball.position.x = ball.radius :=
        max_eq_left (le_of_lt hx1)
      rw [e1, e2]
      simp only [handleRailCollisions, if_pos hx1]
      split_ifs <;> rfl
    · by_cases hx2 : ball.position.x > tableWidth - ball.radius
      · have e1 : min (tableWidth - ball.radius) ball.position.x =
            tableWidth - ball.radius := min_eq_left (le_of_lt hx2)
        have e2 : max ball.radius (tableWidth - ball.radius) =
            tableWidth - ball.radius := max_eq_right h
        rw [e1, e2]
        simp only [handleRailCollisions, if_neg hx1, if_pos hx2]
        split_ifs <;> rfl
      · have e1 : min (tableWidth - ball.radius) ball.position.x =
            ball.position.x := min_eq_right (not_lt.mp hx2)
        have e2 : max ball.radius ball.position.x = ball.position.x :=
          max_eq_right (not_lt.mp hx1)
        rw [e1, e2]
        simp only [handleRailCollisions, if_neg hx1, if_neg hx2]
        split_ifs <;> rfl
  · intro h
    by_cases hy1 : ball.position.y < ball.radius
    · have e1 : min (tableHeight - ball.radius) ball.position.y = ball.position.y :=
        min_eq_right (le_of_lt (lt_of_lt_of_le hy1 h))
      have e2 : max ball.radius ball.position.y = ball.radius :=
        max_eq_left (le_of_lt hy1)
      rw [e1, e2]
      simp only [handleRailCollisions]
      split_ifs <;> simp_all
    · by_cases hy2 : ball.position.y > tableHeight - ball.radius
      · have e1 : min (tableHeight - ball.radius) ball.position.y =
            tableHeight - ball.radius := min_eq_left (le_of_lt hy2)
        have e2 : max ball.radius (tableHeight - ball.radius) =
            tableHeight - ball.radius := max_eq_right h
        rw [e1, e2]
        simp only [handleRailCollisions]
        split_ifs <;> simp_all
      · have e1 : min (tableHeight - ball.radius) ball.position.y =
            ball.position.y := min_eq_right (not_lt.mp hy2)
        have e2 : max ball.radius ball.position.y = ball.position.y :=
          max_eq_right (not_lt.mp hy1)
        rw [e1, e2]
        simp only [handleRailCollisions]
        split_ifs <;> simp_all
  · intro hx1 hx2 hy1 hy2
    have h1 : ¬ ball.position.x < ball.radius := not_lt.mpr hx1
    have h2 : ¬ ball.position.x > tableWidth - ball.radius := not_lt.mpr hx2
    have g1 : ¬ ball.position.y < ball.radius := not_lt.mpr hy1
    have g2 : ¬ ball.position.y > tableHeight - ball.radius := not_lt.mpr hy2
    simp only [handleRailCollisions, if_neg h1, if_neg h2, if_neg g1, if_neg g2]
  · refine ⟨?_, ?_, ?_, ?_⟩ <;>
      · simp only [handleRailCollisions]
        split_ifs <;> rfl

/-- Witness for C3 at a concrete corner case: radius 10, table 100x50,
center (5, 48), velocity (-3, 4).  The ball is out of bounds on both axes
at once: x is clamped to 10 with the x velocity flipped to +3 (the spec's
rail scenario at x = radius - epsilon moving in -x), and independently y
is clamped to 40 with the y velocity flipped to -4. -/
theorem C3_handleRailCollisions_spec_witness :
    ((5 : ℚ) < 10 ∧ ¬ (48 : ℚ) < 10 ∧ (48 : ℚ) > 50 - 10) ∧
    (handleRailCollisions ⟨0, BallType.cue, ⟨5, 48⟩, ⟨-3, 4⟩, true, 10⟩
        100 50).position.x = 10 ∧
    (handleRailCollisions ⟨0, BallType.cue, ⟨5, 48⟩, ⟨-3, 4⟩, true, 10⟩
        100 50).velocity.x = 3 ∧
    (handleRailCollisions ⟨0, BallType.cue, ⟨5, 48⟩, ⟨-3, 4⟩, true, 10⟩
        100 50).position.y = 40 ∧
    (handleRailCollisions ⟨0, BallType.cue, ⟨5, 48⟩, ⟨-3, 4⟩, true, 10⟩
        100 50).velocity.y = -4 := by
  have h := C3_handleRailCollisions_spec
    ⟨0, BallType.cue, ⟨5, 48⟩, ⟨-3, 4⟩, true, 10⟩ 100 50
  have hx := h.1 (by norm_num)
  have hy := h.2.2.2.2.1 (by norm_num) (by norm_num)
  refine ⟨⟨by norm_num, by norm_num, by norm_num⟩, hx.1, ?_, ?_, ?_⟩
  · rw [hx.2]; norm_num
  · rw [hy.1]; norm_num
  · rw [hy.2]

/-- C10: handleRailCollisions is perfectly elastic: each velocity component
comes out either unchanged or exactly negated, so the squared speed (hence
the speed, both magnitudes being nonnegative) is preserved; friction in
updateBallPhysics is therefore the only speed-reducing operation of the
physics module. -/
theorem C10_handleRailCollisions_preserves_speed (ball : Ball)
    (tableWidth tableHeight : ℚ) :
    speedSquared (handleRailCollisions ball tableWidth tableHeight).velocity =
      speedSquared ball.velocity ∧
    ((handleRailCollisions ball tableWidth tableHeight).velocity.x =
        ball.velocity.x ∨
      (handleRailCollisions ball tableWidth tableHeight).velocity.x =
        -ball.velocity.x) ∧
    ((handleRailCollisions ball tableWidth tableHeight).velocity.y =
        ball.velocity.y ∨
      (handleRailCollisions ball tableWidth tableHeight).velocity.y =
        -ball.velocity.y) := by
  refine ⟨?_, ?_, ?_⟩
  · simp only [handleRailCollisions, speedSquared]
    split_ifs <;> simp
  · simp only [handleRailCollisions]
    split_ifs <;> simp
  · simp only [handleRailCollisions]
    split_ifs <;> simp

/-- updateFirstBall with an id that matches no ball is the identity. -/
theorem updateFirstBall_not_found (id : ℤ) (f : Ball → Ball) :
    ∀ l : List Ball, (∀ b ∈ l, b.id ≠ id) → updateFirstBall id f l = l := by
  intro l
  induction l with
  | nil => intro _; rfl
  | cons c rest ih =>
    intro h
    have hc : c.id ≠ id := h c (List.mem_cons_self c rest)
    simp only [updateFirstBall, if_neg hc]
    rw [ih fun b hb => h b (List.mem_cons_of_mem c hb)]

/-- With pairwise distinct ids, updating the first ball matching an id
rewrites exactly the entry holding that id and nothing else. -/
theorem updateFirstBall_found (id : ℤ) (f : Ball → Ball) :
    ∀ (l : List Ball) (i : ℕ) (b : Ball), (l.map Ball.id).Nodup →
      l[i]? = some b → b.id = id →
      updateFirstBall id f l = l.set i (f b) := by
  intro l
  induction l with
  | nil =>
    intro i b _ hget _
    simp at hget
  | cons c rest ih =>
    intro i b hnd hget hid
    rw [List.map_cons, List.nodup_cons] at hnd
    by_cases hc : c.id = id
    · cases i with
      | zero =>
        simp only [List.getElem?_cons_zero, Option.some.injEq] at hget
        subst hget
        simp only [updateFirstBall, if_pos hc, List.set]
      | succ j =>
        exfalso
        have hb : b ∈ rest := by
          simp only [List.getElem?_cons_succ] at hget
          obtain ⟨hlt, hEq⟩ := List.getElem?_eq_some.mp hget
          exact hEq ▸ List.getElem_mem hlt
        exact hnd.1 (by
          rw [← hc] at hid
          exact hid ▸ List.mem_map_of_mem Ball.id hb)
    · cases i with
      | zero =>
        simp only [List.getElem?_cons_zero, Option.some.injEq] at hget
        subst hget
        exact absurd hid hc
      | succ j =>
        simp only [List.getElem?_cons_succ] at hget
        simp only [updateFirstBall, if_neg hc, List.set]
        rw [ih j b hnd.2 hget hid]

/-- C8: the three ball-slice reducers locate their target by id; with an id
matching no ball each reducer returns the state unchanged (a no-op, not an
error), and with a matching id (under the store's distinct-id discipline)
each reducer rewrites exactly the matching entry, changing only its
targeted field. -/
theorem C8_ball_updates (s : BallState) (id : ℤ) (pos vel : Vec2)
    (act : Bool) :
    ((∀ b ∈ s.balls, b.id ≠ id) →
      setBallPosition id pos s = s ∧
      setBallVelocity id vel s = s ∧
      setBallActive id act s = s) ∧
    (∀ (i : ℕ) (b : Ball), (s.balls.map Ball.id).Nodup →
      s.balls[i]? = some b → b.id = id →
      (setBallPosition id pos s).balls =
        s.balls.set i { b with position := pos } ∧
      (setBallVelocity id vel s).balls =
        s.balls.set i { b with velocity := vel } ∧
      (setBallActive id act s).balls =
        s.balls.set i { b with active := act }) := by
  constructor
  · intro h
    refine ⟨?_, ?_, ?_⟩
    · unfold setBallPosition
      rw [updateFirstBall_not_found id (fun b => { b with position := pos })
        s.balls h]
    · unfold setBallVelocity
      rw [updateFirstBall_not_found id (fun b => { b with velocity := vel })
        s.balls h]
    · unfold setBallActive
      rw [updateFirstBall_not_found id (fun b => { b with active := act })
        s.balls h]
  · intro i b hnd hget hid
    refine ⟨?_, ?_, ?_⟩
    · unfold setBallPosition
      rw [updateFirstBall_found id (fun b => { b with position := pos })
        s.balls i b hnd hget hid]
    · unfold setBallVelocity
      rw [updateFirstBall_found id (fun b => { b with velocity := vel })
        s.balls i b hnd hget hid]
    · unfold setBallActive
      rw [updateFirstBall_found id (fun b => { b with active := act })
        s.balls i b hnd hget hid]

/-- Concrete ball used by witnesses: the cue ball at rest. -/
def witnessBallA : Ball := ⟨0, BallType.cue, ⟨10, 20⟩, ⟨0, 0⟩, true, 45 / 4⟩

/-- Concrete ball used by witnesses: an object ball at rest. -/
def witnessBallB : Ball :=
  ⟨1, BallType.solid, ⟨30, 40⟩, ⟨0, 0⟩, true, 45 / 4⟩

/-- Witness for C8 on a concrete two-ball state: id 5 matches no ball, so
setBallPosition is a no-op; id 1 matches the second ball, so
setBallPosition rewrites exactly that entry's position. -/
theorem C8_ball_updates_witness :
    ((∀ b ∈ [witnessBallA, witnessBallB], b.id ≠ 5) ∧
      setBallPosition 5 ⟨1, 2⟩ ⟨[witnessBallA, witnessBallB]⟩ =
        ⟨[witnessBallA, witnessBallB]⟩) ∧
    ((([witnessBallA, witnessBallB].map Ball.id).Nodup ∧
        [witnessBallA, witnessBallB][1]? = some witnessBallB) ∧
      (setBallPosition 1 ⟨1, 2⟩ ⟨[witnessBallA, witnessBallB]⟩).balls =
        [witnessBallA, { witnessBallB with position := ⟨1, 2⟩ }]) := by
  have hmiss : ∀ b ∈ [witnessBallA, witnessBallB], b.id ≠ 5 := by
    decide
  have hnd : ([witnessBallA, witnessBallB].map Ball.id).Nodup := by decide
  have hget : [witnessBallA, witnessBallB][1]? = some witnessBallB := rfl
  have h1 :=
    (C8_ball_updates ⟨[witnessBallA, witnessBallB]⟩ 5 ⟨1, 2⟩ ⟨1, 2⟩
      true).1 hmiss
  have h2 :=
    (C8_ball_updates ⟨[witnessBallA, witnessBallB]⟩ 1 ⟨1, 2⟩ ⟨1, 2⟩
      true).2 1 witnessBallB hnd hget rfl
  exact ⟨⟨hmiss, h1.1⟩, ⟨⟨hnd, hget⟩, h2.1⟩⟩

/-- find? on a decomposed list: if every element of the prefix fails the
predicate and p satisfies it, p is the one found. -/
theorem find?_first {α : Type} (pred : α → Bool) :
    ∀ (l1 : List α) (p : α) (l2 : List α), (∀ q ∈ l1, pred q = false) →
      pred p = true → (l1 ++ p :: l2).find? pred = some p := by
  intro l1
  induction l1 with
  | nil =>
    intro p l2 _ hp
    simp [List.find?_cons, hp]
  | cons q rest ih =>
    intro p l2 hmiss hp
    have hq : pred q = false := hmiss q (List.mem_cons_self q rest)
    simp only [List.cons_append, List.find?_cons, hq]
    exact ih p l2 (fun r hr => hmiss r (List.mem_cons_of_mem q hr)) hp

/-- updateFirstBall walks past a prefix holding no matching id and rewrites
the first matching ball it meets. -/
theorem updateFirstBall_append_cons (id : ℤ) (f : Ball → Ball) :
    ∀ (done : List Ball) (c : Ball) (rest : List Ball),
      (∀ d ∈ done, d.id ≠ id) → c.id = id →
      updateFirstBall id f (done ++ c :: rest) = done ++ f c :: rest := by
  intro done
  induction done with
  | nil =>
    intro c rest _ hc
    simp [updateFirstBall, if_pos hc]
  | cons d drest ih =>
    intro c rest hmiss hc
    have hd : d.id ≠ id := hmiss d (List.mem_cons_self d drest)
    simp only [List.cons_append, updateFirstBall, if_neg hd, List.append_eq]
    rw [ih c rest (fun e he => hmiss e (List.mem_cons_of_mem d he)) hc]

/-- Two balls agreeing on every field are equal. -/
theorem ball_eq_of_fields (x y : Ball) (h1 : x.id = y.id)
    (h2 : x.type = y.type) (h3 : x.position = y.position)
    (h4 : x.velocity = y.velocity) (h5 : x.active = y.active)
    (h6 : x.radius = y.radius) : x = y := by
  cases x
  cases y
  simp_all

/-- The ball written back by the dispatches of one loop body of
PhysicsEngine.step equals the processed copy: position and velocity always,
and the active flag exactly when the copy was captured. -/
theorem stepBallDispatches_eq (w h : ℚ) (pk : List Pocket) (b : Ball)
    (done rest : List Ball) (hmiss : ∀ d ∈ done, d.id ≠ b.id) :
    stepBallDispatches w h pk b (done ++ b :: rest) =
      done ++ (processBall w h pk b).1 :: rest := by
  by_cases ha : b.active = true
  · have hfields := processBall_fields w h pk b
    simp only [stepBallDispatches, ha, if_true]
    rw [updateFirstBall_append_cons b.id
      (fun x => { x with position := (processBall w h pk b).1.position })
      done b rest hmiss rfl]
    rw [updateFirstBall_append_cons b.id
      (fun x => { x with velocity := (processBall w h pk b).1.velocity })
      done { b with position := (processBall w h pk b).1.position }
      rest hmiss rfl]
    by_cases hcap : (processBall w h pk b).1.active = true
    · rw [if_pos hcap]
      have hX : { b with
                    position := (processBall w h pk b).1.position,
                    velocity := (processBall w h pk b).1.velocity } =
          (processBall w h pk b).1 :=
        ball_eq_of_fields _ _ hfields.1.symm hfields.2.1.symm rfl rfl
          (by rw [ha, hcap]) hfields.2.2.symm
      rw [hX]
    · rw [if_neg hcap]
      rw [updateFirstBall_append_cons b.id
        (fun x => { x with active := false })
        done { b with
                 position := (processBall w h pk b).1.position,
                 velocity := (processBall w h pk b).1.velocity }
        rest hmiss rfl]
      have hactive : (processBall w h pk b).1.active = false := by
        cases hab : (processBall w h pk b).1.active
        · rfl
        · exact absurd hab hcap
      have hX : { b with
                    position := (processBall w h pk b).1.position,
                    velocity := (processBall w h pk b).1.velocity,
                    active := false } =
          (processBall w h pk b).1 :=
        ball_eq_of_fields _ _ hfields.1.symm hfields.2.1.symm rfl rfl
          hactive.symm hfields.2.2.symm
      rw [hX]
  · have ha' : b.active = false := by
      cases hab : b.active
      · rfl
      · exact absurd hab ha
    simp only [stepBallDispatches, ha', Bool.false_eq_true, if_false]
    rw [processBall_inactive w h pk b ha']

/-- The step for-loop over a snapshot suffix, dispatching into the store
list, rewrites exactly the suffix to its processed copies (distinct ids are
what lets each dispatch find its own ball). -/
theorem stepLoop_eq (w h : ℚ) (pk : List Pocket) :
    ∀ (snapshot done : List Ball),
      (((done ++ snapshot).map Ball.id).Nodup) →
      stepLoop w h pk snapshot (done ++ snapshot) =
        done ++ snapshot.map (fun b => (processBall w h pk b).1) := by
  intro snapshot
  induction snapshot with
  | nil =>
    intro done _
    simp [stepLoop]
  | cons b rest ih =>
    intro done hnd
    have hmiss : ∀ d ∈ done, d.id ≠ b.id := by
      intro d hd
      rw [List.map_append, List.nodup_append] at hnd
      intro hEq
      exact hnd.2.2 (List.mem_map_of_mem Ball.id hd)
        (by rw [hEq]; exact List.mem_cons_self b.id _)
    simp only [stepLoop]
    rw [stepBallDispatches_eq w h pk b done rest hmiss]
    have hassoc : done ++ (processBall w h pk b).1 :: rest =
        (done ++ [(processBall w h pk b).1]) ++ rest := by
      simp
    rw [hassoc, ih (done ++ [(processBall w h pk b).1]) (by
      have hid : (processBall w h pk b).1.id = b.id :=
        (processBall_fields w h pk b).1
      have : ((done ++ [(processBall w h pk b).1]) ++ rest).map Ball.id =
          ((done ++ [b]) ++ rest).map Ball.id := by
        simp [hid]
      rw [this]
      have : (done ++ [b]) ++ rest = done ++ b :: rest := by simp
      rw [this]
      exact hnd)]
    simp

/-- C2: the shared per-ball body integrates, then rail-resolves, then scans
the pockets in order: with no pocket hit it returns the rail-resolved ball
and reports nothing, and the first pocket whose squared center distance is
within its squared radius (boundary inclusive, ball radius not added,
conjunct two restates the test as an inequality) captures the ball — the
velocity becomes (0,0), the ball goes inactive, its id is reported, and
later pockets are never consulted; and one PhysicsEngine.step produces,
per snapshot ball, exactly the same processed copies as one
runPhysicsSimulation iteration (simStep), dispatch-by-id store writes
notwithstanding. -/
theorem C2_step_ordering :
    (∀ (tw th : ℚ) (pk : List Pocket) (b : Ball), b.active = true →
      ((∀ p ∈ pk, checkPocketCollision
          (handleRailCollisions (updateBallPhysics b PHYSICS_TIMESTEP) tw th)
          p = false) →
        processBall tw th pk b =
          (handleRailCollisions (updateBallPhysics b PHYSICS_TIMESTEP) tw th,
            none)) ∧
      (∀ (l1 : List Pocket) (p : Pocket) (l2 : List Pocket),
        pk = l1 ++ p :: l2 →
        (∀ q ∈ l1, checkPocketCollision
          (handleRailCollisions (updateBallPhysics b PHYSICS_TIMESTEP) tw th)
          q = false) →
        checkPocketCollision
          (handleRailCollisions (updateBallPhysics b PHYSICS_TIMESTEP) tw th)
          p = true →
        processBall tw th pk b =
          ({ handleRailCollisions (updateBallPhysics b PHYSICS_TIMESTEP) tw th
              with active := false, velocity := ⟨0, 0⟩ }, some b.id))) ∧
    (∀ (b : Ball) (p : Pocket), checkPocketCollision b p = true ↔
      (b.position.x - p.x) * (b.position.x - p.x) +
        (b.position.y - p.y) * (b.position.y - p.y) ≤ p.radius * p.radius) ∧
    (∀ s : StoreState, (s.balls.map Ball.id).Nodup →
      anyBallMoving s.balls = true →
      (step s).1.balls =
        s.balls.map (fun b => (processBall s.width s.height s.pockets b).1) ∧
      (step s).1.balls = (simStep s.width s.height s.pockets s.balls).1) := by
  refine ⟨?_, ?_, ?_⟩
  · intro tw th pk b ha
    constructor
    · intro hnone
      have hf : (pk.find? fun p => checkPocketCollision
          (handleRailCollisions (updateBallPhysics b PHYSICS_TIMESTEP) tw th)
          p) = none := by
        rw [List.find?_eq_none]
        intro p hp
        rw [hnone p hp]
        exact Bool.false_ne_true
      simp only [processBall, ha, if_true]
      rw [hf]
    · intro l1 p l2 hdec hmiss hhit
      have hf : (pk.find? fun q => checkPocketCollision
          (handleRailCollisions (updateBallPhysics b PHYSICS_TIMESTEP) tw th)
          q) = some p := by
        rw [hdec]
        exact find?_first _ l1 p l2 hmiss hhit
      have hid : (handleRailCollisions
          (updateBallPhysics b PHYSICS_TIMESTEP) tw th).id = b.id := by
        rw [(handleRailCollisions_fields _ tw th).1,
          (updateBallPhysics_fields b PHYSICS_TIMESTEP).1]
      simp only [processBall, ha, if_true]
      rw [hf, hid]
  · intro b p
    simp [checkPocketCollision]
  · intro s hnd hm
    have hcond : ¬ anyBallMoving s.balls = false := by
      rw [hm]
      simp
    have hloop := stepLoop_eq s.width s.height s.pockets s.balls [] hnd
    constructor
    · simp only [step, if_neg hcond]
      simpa using hloop
    · simp only [step, if_neg hcond]
      rw [simStep_eq]
      simpa using hloop

/-- Witness for C2 at a concrete capture: the cue ball at (100,100) with
velocity (60,0) integrates to (101,100) with velocity (58,0), misses the
first pocket (center (500,500), radius 5) and lands inside the second
(center (101,100), radius 25), so it comes back inactive with velocity
(0,0) and its id 0 is reported. -/
theorem C2_step_ordering_witness :
    ((∀ q ∈ [(⟨500, 500, 5⟩ : Pocket)], checkPocketCollision
        (handleRailCollisions (updateBallPhysics
          ⟨0, BallType.cue, ⟨100, 100⟩, ⟨60, 0⟩, true, 45 / 4⟩
          PHYSICS_TIMESTEP) 1000 500) q = false) ∧
      checkPocketCollision
        (handleRailCollisions (updateBallPhysics
          ⟨0, BallType.cue, ⟨100, 100⟩, ⟨60, 0⟩, true, 45 / 4⟩
          PHYSICS_TIMESTEP) 1000 500) ⟨101, 100, 25⟩ = true) ∧
    processBall 1000 500 [⟨500, 500, 5⟩, ⟨101, 100, 25⟩]
        ⟨0, BallType.cue, ⟨100, 100⟩, ⟨60, 0⟩, true, 45 / 4⟩ =
      (⟨0, BallType.cue, ⟨101, 100⟩, ⟨0, 0⟩, false, 45 / 4⟩, some 0) := by
  have hupd : updateBallPhysics
      ⟨0, BallType.cue, ⟨100, 100⟩, ⟨60, 0⟩, true, 45 / 4⟩ PHYSICS_TIMESTEP =
      ⟨0, BallType.cue, ⟨101, 100⟩, ⟨58, 0⟩, true, 45 / 4⟩ := by
    have hdt : PHYSICS_TIMESTEP = 1 / 60 := by
      norm_num [PHYSICS_TIMESTEP, PHYSICS_FPS]
    rw [hdt]
    simp only [updateBallPhysics]
    rw [if_neg (by norm_num [speedSquared, VELOCITY_THRESHOLD])]
    simp only [FRICTION_COEFFICIENT, Ball.mk.injEq, Vec2.mk.injEq]
    norm_num
  have hrail : handleRailCollisions
      ⟨0, BallType.cue, ⟨101, 100⟩, ⟨58, 0⟩, true, 45 / 4⟩ 1000 500 =
      ⟨0, BallType.cue, ⟨101, 100⟩, ⟨58, 0⟩, true, 45 / 4⟩ := by
    simp only [handleRailCollisions]
    rw [if_neg (by norm_num), if_neg (by norm_num)]
    rw [if_neg (by norm_num), if_neg (by norm_num)]
  have hb2 : handleRailCollisions (updateBallPhysics
      ⟨0, BallType.cue, ⟨100, 100⟩, ⟨60, 0⟩, true, 45 / 4⟩
      PHYSICS_TIMESTEP) 1000 500 =
      ⟨0, BallType.cue, ⟨101, 100⟩, ⟨58, 0⟩, true, 45 / 4⟩ := by
    rw [hupd]
    exact hrail
  have hmiss : ∀ q ∈ [(⟨500, 500, 5⟩ : Pocket)], checkPocketCollision
      (handleRailCollisions (updateBallPhysics
        ⟨0, BallType.cue, ⟨100, 100⟩, ⟨60, 0⟩, true, 45 / 4⟩
        PHYSICS_TIMESTEP) 1000 500) q = false := by
    intro q hq
    rw [List.mem_singleton] at hq
    subst hq
    rw [hb2]
    simp only [checkPocketCollision, decide_eq_false_iff_not]
    norm_num
  have hhit : checkPocketCollision
      (handleRailCollisions (updateBallPhysics
        ⟨0, BallType.cue, ⟨100, 100⟩, ⟨60, 0⟩, true, 45 / 4⟩
        PHYSICS_TIMESTEP) 1000 500) ⟨101, 100, 25⟩ = true := by
    rw [hb2]
    simp only [checkPocketCollision, decide_eq_true_eq]
    norm_num
  have h := ((C2_step_ordering.1 1000 500
    [⟨500, 500, 5⟩, ⟨101, 100, 25⟩]
    ⟨0, BallType.cue, ⟨100, 100⟩, ⟨60, 0⟩, true, 45 / 4⟩ rfl).2
    [⟨500, 500, 5⟩] ⟨101, 100, 25⟩ [] rfl hmiss hhit)
  refine ⟨⟨hmiss, hhit⟩, ?_⟩
  rw [h, hb2]

/-- One simStep leaves an inactive entry untouched at its index. -/
theorem simStep_inactive_getElem (tw th : ℚ) (pk : List Pocket)
    (balls : List Ball) (i : ℕ) (b : Ball) (hget : balls[i]? = some b)
    (hb : b.active = false) : ((simStep tw th pk balls).1)[i]? = some b := by
  have hpb : (processBall tw th pk b).1 = b :=
    congrArg Prod.fst (processBall_inactive tw th pk b hb)
  rw [simStep_eq]
  show ((balls.map fun x => (processBall tw th pk x).1))[i]? = some b
  rw [List.getElem?_map, hget]
  simp [hpb]

/-- simStep never changes the sequence of ball ids. -/
theorem simStep_map_id (tw th : ℚ) (pk : List Pocket) (balls : List Ball) :
    ((simStep tw th pk balls).1).map Ball.id = balls.map Ball.id := by
  rw [simStep_eq]
  show ((balls.map fun x => (processBall tw th pk x).1)).map Ball.id = _
  rw [List.map_map]
  exact List.map_congr_left fun b _ => (processBall_fields tw th pk b).1

/-- Every id emitted by one simStep belongs to a ball that was active
before the step and is captured by it. -/
theorem simStep_emitted (tw th : ℚ) (pk : List Pocket) (balls : List Ball)
    (j : ℤ) (hj : j ∈ (simStep tw th pk balls).2) :
    ∃ b ∈ balls, b.id = j ∧ b.active = true ∧
      (processBall tw th pk b).2 = some j := by
  rw [simStep_eq] at hj
  simp only [List.mem_filterMap] at hj
  obtain ⟨b, hb, hpb⟩ := hj
  have he := processBall_emit tw th pk b j hpb
  exact ⟨b, hb, he.1.symm, he.2.1, hpb⟩

/-- The ids emitted by one simStep form a sublist of the ball ids, hence
contain no duplicates when the ball ids are distinct. -/
theorem simStep_emitted_sublist (tw th : ℚ) (pk : List Pocket) :
    ∀ balls : List Ball,
      ((simStep tw th pk balls).2).Sublist (balls.map Ball.id) := by
  intro balls
  rw [simStep_eq]
  show (balls.filterMap fun b => (processBall tw th pk b).2).Sublist _
  induction balls with
  | nil => simp
  | cons b rest ih =>
    rw [List.filterMap_cons, List.map_cons]
    cases hp : (processBall tw th pk b).2 with
    | none => exact List.Sublist.cons _ ih
    | some j =>
      have hj : j = b.id := (processBall_emit tw th pk b j hp).1
      rw [hj]
      exact List.Sublist.cons₂ _ ih

/-- Invariants of the simulation loop: inactive entries are frozen, activity
is never regained, and the accumulated pocketed ids stay duplicate-free and
keep pointing at inactive balls. -/
theorem runPhysicsAux_inactive (tw th : ℚ) (pk : List Pocket)
    (maxIterations : ℕ) :
    ∀ fuel balls pocketed iterations, maxIterations - iterations ≤ fuel →
      (∀ (i : ℕ) (b : Ball), balls[i]? = some b → b.active = false →
        (runPhysicsAux tw th pk maxIterations balls pocketed
          iterations).balls[i]? = some b) ∧
      (∀ (i : ℕ) (b' : Ball),
        (runPhysicsAux tw th pk maxIterations balls pocketed
          iterations).balls[i]? = some b' → b'.active = true →
        ∃ b, balls[i]? = some b ∧ b.active = true) ∧
      ((balls.map Ball.id).Nodup → pocketed.Nodup →
        (∀ j ∈ pocketed, ∃ b ∈ balls, b.id = j ∧ b.active = false) →
        (runPhysicsAux tw th pk maxIterations balls pocketed
          iterations).pocketedBalls.Nodup ∧
        (∀ j ∈ (runPhysicsAux tw th pk maxIterations balls pocketed
            iterations).pocketedBalls,
          ∃ b ∈ (runPhysicsAux tw th pk maxIterations balls pocketed
            iterations).balls, b.id = j ∧ b.active = false)) := by
  intro fuel
  induction fuel with
  | zero =>
    intro balls pocketed iterations hfuel
    have hc : ¬ (anyBallMoving balls = true ∧ iterations < maxIterations) := by
      intro hcon
      omega
    rw [runPhysicsAux, dif_neg hc]
    refine ⟨fun i b hget _ => hget, fun i b' hget ha => ⟨b', hget, ha⟩, ?_⟩
    intro _ hpn hinv
    exact ⟨hpn, hinv⟩
  | succ fuel ih =>
    intro balls pocketed iterations hfuel
    by_cases hc : anyBallMoving balls = true ∧ iterations < maxIterations
    · rw [runPhysicsAux, dif_pos hc]
      have IH := ih (simStep tw th pk balls).1
        (pocketed ++ (simStep tw th pk balls).2) (iterations + 1) (by omega)
      refine ⟨?_, ?_, ?_⟩
      · intro i b hget hb
        exact IH.1 i b (simStep_inactive_getElem tw th pk balls i b hget hb) hb
      · intro i b' hget ha
        obtain ⟨b'', hget'', ha''⟩ := IH.2.1 i b' hget ha
        have hmap : ((simStep tw th pk balls).1)[i]? =
            (balls[i]?).map (fun x => (processBall tw th pk x).1) := by
          rw [simStep_eq]
          exact List.getElem?_map _ _ _
        rw [hmap] at hget''
        obtain ⟨b0, hb0, hpb0⟩ := Option.map_eq_some'.mp hget''
        refine ⟨b0, hb0, ?_⟩
        apply processBall_active_mono tw th pk b0
        rw [hpb0]
        exact ha''
      · intro hnd hpn hinv
        have hnd' : (((simStep tw th pk balls).1).map Ball.id).Nodup := by
          rw [simStep_map_id]
          exact hnd
        have hemnd : ((simStep tw th pk balls).2).Nodup :=
          (simStep_emitted_sublist tw th pk balls).nodup hnd
        have hdisj : pocketed.Disjoint (simStep tw th pk balls).2 := by
          intro j hjp hje
          obtain ⟨b, hb, hbid, hbact⟩ := hinv j hjp
          obtain ⟨b', hb', hbid', hact', _⟩ :=
            simStep_emitted tw th pk balls j hje
          have hbb : b = b' :=
            List.inj_on_of_nodup_map hnd hb hb' (by rw [hbid, hbid'])
          rw [hbb, hact'] at hbact
          exact Bool.noConfusion hbact
        have hpn' : (pocketed ++ (simStep tw th pk balls).2).Nodup :=
          hpn.append hemnd hdisj
        have hinv' : ∀ j ∈ pocketed ++ (simStep tw th pk balls).2,
            ∃ b' ∈ (simStep tw th pk balls).1, b'.id = j ∧
              b'.active = false := by
          intro j hj
          rcases List.mem_append.mp hj with hjp | hje
          · obtain ⟨b, hb, hbid, hbact⟩ := hinv j hjp
            have hpb : (processBall tw th pk b).1 = b :=
              congrArg Prod.fst (processBall_inactive tw th pk b hbact)
            refine ⟨b, ?_, hbid, hbact⟩
            rw [simStep_eq]
            show b ∈ balls.map fun x => (processBall tw th pk x).1
            rw [← hpb]
            exact List.mem_map_of_mem _ hb
          · obtain ⟨b, hb, hbid, _, hpb⟩ :=
              simStep_emitted tw th pk balls j hje
            refine ⟨(processBall tw th pk b).1, ?_, ?_, ?_⟩
            · rw [simStep_eq]
              exact List.mem_map_of_mem _ hb
            · rw [(processBall_fields tw th pk b).1, hbid]
            · exact (processBall_emit tw th pk b j hpb).2.2
        exact IH.2.2 hnd' hpn' hinv'
    · rw [runPhysicsAux, dif_neg hc]
      refine ⟨fun i b hget _ => hget, fun i b' hget ha => ⟨b', hget, ha⟩, ?_⟩
      intro _ hpn hinv
      exact ⟨hpn, hinv⟩

/-- C9: inactive balls are excluded from all physics work: within one
iteration (simStep, conjunct one) and across PhysicsEngine.step (conjunct
two, under the store's distinct-id discipline) an inactive ball's entry is
returned bit-identical; over a whole runPhysicsSimulation an initially
inactive ball is untouched (conjunct three) and a ball active at the end
was active at the start, so deactivation is irreversible (conjunct four);
and with distinct ball ids each captured id appears in pocketedBalls
exactly once, every listed id belonging to a ball that ends inactive
(conjunct five). -/
theorem C9_inactive_irreversible (st : SimulationState)
    (maxIterations : ℕ) :
    (∀ (tw th : ℚ) (pk : List Pocket) (balls : List Ball) (i : ℕ)
      (b : Ball), balls[i]? = some b → b.active = false →
      ((simStep tw th pk balls).1)[i]? = some b) ∧
    (∀ (s : StoreState) (i : ℕ) (b : Ball),
      (s.balls.map Ball.id).Nodup → s.balls[i]? = some b →
      b.active = false → (step s).1.balls[i]? = some b) ∧
    (∀ (i : ℕ) (b : Ball), st.balls[i]? = some b → b.active = false →
      (runPhysicsSimulation st maxIterations).balls[i]? = some b) ∧
    (∀ (i : ℕ) (b' : Ball),
      (runPhysicsSimulation st maxIterations).balls[i]? = some b' →
      b'.active = true → ∃ b, st.balls[i]? = some b ∧ b.active = true) ∧
    ((st.balls.map Ball.id).Nodup →
      (runPhysicsSimulation st maxIterations).pocketedBalls.Nodup ∧
      (∀ j ∈ (runPhysicsSimulation st maxIterations).pocketedBalls,
        ∃ b ∈ (runPhysicsSimulation st maxIterations).balls,
          b.id = j ∧ b.active = false)) := by
  have haux := runPhysicsAux_inactive st.tableWidth st.tableHeight
    st.pockets maxIterations maxIterations st.balls [] 0 (by omega)
  refine ⟨simStep_inactive_getElem, ?_, haux.1, haux.2.1, ?_⟩
  · intro s i b hnd hget hb
    by_cases hm : anyBallMoving s.balls = false
    · simp only [step, if_pos hm]
      exact hget
    · simp only [step, if_neg hm]
      have hloop := stepLoop_eq s.width s.height s.pockets s.balls [] hnd
      show (stepLoop s.width s.height s.pockets s.balls s.balls)[i]? = some b
      rw [show stepLoop s.width s.height s.pockets s.balls s.balls =
          stepLoop s.width s.height s.pockets s.balls ([] ++ s.balls)
          from rfl, hloop]
      have hpb : (processBall s.width s.height s.pockets b).1 = b :=
        congrArg Prod.fst (processBall_inactive _ _ _ b hb)
      show (s.balls.map fun x =>
        (processBall s.width s.height s.pockets x).1)[i]? = some b
      rw [List.getElem?_map, hget]
      simp [hpb]
  · intro hnd
    exact haux.2.2 hnd List.nodup_nil (by simp)

/-- Concrete pocketed ball used by witnesses. -/
def witnessInactiveBall : Ball :=
  ⟨7, BallType.eight, ⟨50, 50⟩, ⟨0, 0⟩, false, 45 / 4⟩

/-- Witness for C9 on a concrete state: the inactive eight ball is returned
untouched at its index by a full run, and with distinct ids the pocketed
list of that run is duplicate-free. -/
theorem C9_inactive_irreversible_witness :
    (([witnessInactiveBall, witnessBallA] : List Ball)[0]? =
        some witnessInactiveBall ∧
      witnessInactiveBall.active = false ∧
      (([witnessInactiveBall, witnessBallA].map Ball.id).Nodup)) ∧
    (runPhysicsSimulation ⟨[witnessInactiveBall, witnessBallA], [], 1000, 500⟩
        1).balls[0]? = some witnessInactiveBall ∧
    (runPhysicsSimulation ⟨[witnessInactiveBall, witnessBallA], [], 1000, 500⟩
        1).pocketedBalls.Nodup := by
  have hnd : (([witnessInactiveBall, witnessBallA].map Ball.id).Nodup) := by
    decide
  refine ⟨⟨rfl, rfl, hnd⟩, ?_, ?_⟩
  · exact (C9_inactive_irreversible
      ⟨[witnessInactiveBall, witnessBallA], [], 1000, 500⟩ 1).2.2.1 0
      witnessInactiveBall rfl rfl
  · exact ((C9_inactive_irreversible
      ⟨[witnessInactiveBall, witnessBallA], [], 1000, 500⟩ 1).2.2.2.2 hnd).1

/-- Table dimensions record (source: TableDimensions in the table slice). -/
structure TableDimensions where
  width : ℚ
  height : ℚ
  pocketRadius : ℚ
  railWidth : ℚ
  pockets : List Pocket
deriving DecidableEq

/-- Pocket layout (source: createPockets, final revision per the design
history: zero corner inset, so the four corner pockets sit exactly on the
playing-surface corners, and the two side pockets sit at the midpoints of
the long edges offset outward by 0.607 x radius, derived from a 25
percent-area-on-table target; an older draft of the same file in the store
slice instead used a 0.75 x radius corner inset with side pockets on the
short edges). -/
def createPockets (width height pocketRadius : ℚ) : List Pocket :=
  let sideInset := pocketRadius * (607 / 1000)
  let cornerInset : ℚ := 0
  [⟨cornerInset, cornerInset, pocketRadius⟩,
   ⟨width - cornerInset, cornerInset, pocketRadius⟩,
   ⟨cornerInset, height - cornerInset, pocketRadius⟩,
   ⟨width - cornerInset, height - cornerInset, pocketRadius⟩,
   ⟨width / 2, -sideInset, pocketRadius⟩,
   ⟨width / 2, height + sideInset, pocketRadius⟩]

/-- Table slice state (source: TableState). -/
structure TableState where
  dimensions : TableDimensions
deriving DecidableEq

/-- Reducer setDimensions from the table slice: replaces the dimensions and
recomputes the derived pockets from the new values. -/
def setDimensions (width height pocketRadius railWidth : ℚ)
    (_s : TableState) : TableState :=
  ⟨⟨width, height, pocketRadius, railWidth,
    createPockets width height pocketRadius⟩⟩

/-- The table slice's initial dimensions: 1000 x 500, pocket radius 25,
rail width 40, pockets derived. -/
def defaultTableDimensions : TableDimensions :=
  ⟨1000, 500, 25, 40, createPockets 1000 500 25⟩

/-- Orientation test (source: TableTransform.isPortrait; the class memoizes
this and the values below, but each cache is pure recomputation from
(screenWidth, screenHeight, tableDimensions, padding), so the embedding is
the computation itself). -/
def isPortrait (screenWidth screenHeight : ℚ) : Bool :=
  decide (screenWidth < screenHeight)

/-- Total renderable table size including rails (source:
getTotalTableDimensions). -/
def getTotalTableDimensions (td : TableDimensions) : ℚ × ℚ :=
  (td.width + 2 * td.railWidth, td.height + 2 * td.railWidth)

/-- Uniform scale factor (source: TableTransform.getScale). -/
def getScale (screenWidth screenHeight : ℚ) (td : TableDimensions)
    (padding : ℚ) : ℚ :=
  let totalTable := getTotalTableDimensions td
  if isPortrait screenWidth screenHeight then
    min ((screenWidth - 2 * padding) / totalTable.2)
      ((screenHeight - 2 * padding) / totalTable.1)
  else
    min ((screenWidth - 2 * padding) / totalTable.1)
      ((screenHeight - 2 * padding) / totalTable.2)

/-- Centering translation (source: TableTransform.getTranslation). -/
def getTranslation (screenWidth screenHeight : ℚ) (td : TableDimensions)
    (padding : ℚ) : Vec2 :=
  let totalTable := getTotalTableDimensions td
  let scale := getScale screenWidth screenHeight td padding
  if isPortrait screenWidth screenHeight then
    ⟨(screenWidth - totalTable.2 * scale) / 2,
     (screenHeight - totalTable.1 * scale) / 2⟩
  else
    ⟨(screenWidth - totalTable.1 * scale) / 2,
     (screenHeight - totalTable.2 * scale) / 2⟩

/-- 2D affine matrix in DOMMatrix layout: columns (a, b) and (c, d) plus
translation (e, f).  The operations below follow the repository's own
DOMMatrix/DOMPoint polyfill, which spells out the browser semantics the
transform code relies on. -/
structure DOMMatrix where
  a : ℚ
  b : ℚ
  c : ℚ
  d : ℚ
  e : ℚ
  f : ℚ
deriving DecidableEq

/-- Identity matrix, the polyfill's constructor default. -/
def DOMMatrix.identity : DOMMatrix := ⟨1, 0, 0, 1, 0, 0⟩

/-- translateSelf from the polyfill. -/
def DOMMatrix.translateSelf (m : DOMMatrix) (tx ty : ℚ) : DOMMatrix :=
  { m with e := m.e + m.a * tx + m.c * ty, f := m.f + m.b * tx + m.d * ty }

/-- scaleSelf from the polyfill at a uniform scale, the only way the
source calls it. -/
def DOMMatrix.scaleSelf (m : DOMMatrix) (s : ℚ) : DOMMatrix :=
  ⟨m.a * s, m.b * s, m.c * s, m.d * s, m.e, m.f⟩

/-- rotateSelf from the polyfill at the one angle the source ever passes,
-90 degrees: cos(-90°) = 0 and sin(-90°) = -1 substituted exactly into the
polyfill's rotation formulas. -/
def DOMMatrix.rotateSelfNeg90 (m : DOMMatrix) : DOMMatrix :=
  ⟨-m.c, -m.d, m.a, m.b, m.e, m.f⟩

/-- Determinant, as the polyfill's inverse computes it. -/
def DOMMatrix.det (m : DOMMatrix) : ℚ := m.a * m.d - m.b * m.c

/-- inverse from the polyfill: a matrix whose |det| is below 1e-10 is
rejected (the polyfill throws); the rejection becomes none. -/
def DOMMatrix.inverse (m : DOMMatrix) : Option DOMMatrix :=
  if |m.det| < 1 / 10 ^ 10 then none
  else
    some ⟨m.d / m.det, -m.b / m.det, -m.c / m.det, m.a / m.det,
      (m.c * m.f - m.d * m.e) / m.det, (m.b * m.e - m.a * m.f) / m.det⟩

/-- DOMPoint.matrixTransform from the polyfill, on 2D points. -/
def DOMMatrix.transformPoint (m : DOMMatrix) (p : Vec2) : Vec2 :=
  ⟨m.a * p.x + m.c * p.y + m.e, m.b * p.x + m.d * p.y + m.f⟩

/-- Forward table-to-screen matrix (source: TableTransform.getTransform):
landscape is translate then scale then the rail-origin shift; portrait
additionally rotates -90 degrees and offsets by the rotated table width. -/
def getTransform (screenWidth screenHeight : ℚ) (td : TableDimensions)
    (padding : ℚ) : DOMMatrix :=
  let scale := getScale screenWidth screenHeight td padding
  let translation := getTranslation screenWidth screenHeight td padding
  let totalTable := getTotalTableDimensions td
  if isPortrait screenWidth screenHeight then
    ((((DOMMatrix.identity.translateSelf translation.x
      (translation.y + totalTable.1 * scale)).rotateSelfNeg90).scaleSelf
      scale).translateSelf td.railWidth td.railWidth)
  else
    (((DOMMatrix.identity.translateSelf translation.x
      translation.y).scaleSelf scale).translateSelf td.railWidth td.railWidth)

/-- Inverse matrix (source: TableTransform.getInverseTransform). -/
def getInverseTransform (screenWidth screenHeight : ℚ)
    (td : TableDimensions) (padding : ℚ) : Option DOMMatrix :=
  (getTransform screenWidth screenHeight td padding).inverse

/-- Forward point mapping (source: TableTransform.tableToScreen). -/
def tableToScreen (screenWidth screenHeight : ℚ) (td : TableDimensions)
    (padding : ℚ) (p : Vec2) : Vec2 :=
  (getTransform screenWidth screenHeight td padding).transformPoint p

/-- Inverse point mapping (source: TableTransform.screenToTable); none when
the polyfill inverse is unavailable (the source would throw there). -/
def screenToTable (screenWidth screenHeight : ℚ) (td : TableDimensions)
    (padding : ℚ) (p : Vec2) : Option Vec2 :=
  (getInverseTransform screenWidth screenHeight td padding).map
    (fun m => m.transformPoint p)

/-- Whenever the polyfill accepts a matrix, the inverse it returns undoes
the forward point mapping exactly. -/
theorem inverse_roundtrip (m : DOMMatrix)
    (h : ¬ |m.det| < 1 / 10 ^ 10) (p : Vec2) :
    ∃ mi, m.inverse = some mi ∧
      mi.transformPoint (m.transformPoint p) = p := by
  have hdet : m.det ≠ 0 := by
    intro h0
    rw [h0] at h
    norm_num at h
  have hdet' : m.a * m.d - m.b * m.c ≠ 0 := hdet
  refine ⟨_, by rw [DOMMatrix.inverse, if_neg h], ?_⟩
  cases p with
  | mk px py =>
    simp only [DOMMatrix.transformPoint, DOMMatrix.det, Vec2.mk.injEq]
    constructor
    · field_simp
      ring
    · field_simp
      ring

/-- The determinant of the forward transform is the square of the scale,
in both orientations. -/
theorem getTransform_det (screenWidth screenHeight : ℚ)
    (td : TableDimensions) (padding : ℚ) :
    (getTransform screenWidth screenHeight td padding).det =
      (getScale screenWidth screenHeight td padding) ^ 2 := by
  simp only [getTransform]
  split_ifs <;>
    simp [DOMMatrix.det, DOMMatrix.identity, DOMMatrix.translateSelf,
      DOMMatrix.scaleSelf, DOMMatrix.rotateSelfNeg90] <;>
    ring

/-- C4 (amended): for every point and every configuration whose scale
satisfies scale^2 at least 1e-10 (so the polyfill's inverse accepts the
forward matrix, whose determinant is scale^2 in both orientations),
screenToTable inverts tableToScreen exactly over the rationals, hence in
particular within the specified 1e-6 tolerance. -/
theorem C4_roundtrip (screenWidth screenHeight : ℚ) (td : TableDimensions)
    (padding : ℚ) (p : Vec2)
    (h : 1 / 10 ^ 10 ≤ (getScale screenWidth screenHeight td padding) ^ 2) :
    screenToTable screenWidth screenHeight td padding
      (tableToScreen screenWidth screenHeight td padding p) = some p := by
  have hdet : ¬ |(getTransform screenWidth screenHeight td padding).det| <
      1 / 10 ^ 10 := by
    rw [getTransform_det, abs_of_nonneg (sq_nonneg _)]
    exact not_lt.mpr h
  obtain ⟨mi, hmi, hrt⟩ :=
    inverse_roundtrip (getTransform screenWidth screenHeight td padding)
      hdet p
  rw [screenToTable, getInverseTransform, hmi, tableToScreen]
  rw [Option.map_some']
  rw [hrt]

/-- The scenario-C scale: screen 1920x1080, default table, padding 40. -/
theorem getScale_scenarioC :
    getScale 1920 1080 defaultTableDimensions 40 = 46 / 27 := by
  rw [getScale]
  rw [if_neg (by norm_num [isPortrait])]
  simp only [getTotalTableDimensions, defaultTableDimensions]
  rw [min_def]
  norm_num

/-- Witness for C4 in scenario C: the scale 46/27 passes the determinant
guard and the concrete point (123, 45) survives the round trip. -/
theorem C4_roundtrip_witness :
    (1 / 10 ^ 10 ≤ (getScale 1920 1080 defaultTableDimensions 40) ^ 2) ∧
    screenToTable 1920 1080 defaultTableDimensions 40
      (tableToScreen 1920 1080 defaultTableDimensions 40 ⟨123, 45⟩) =
      some ⟨123, 45⟩ := by
  have h : 1 / 10 ^ 10 ≤ (getScale 1920 1080 defaultTableDimensions 40) ^ 2 := by
    rw [getScale_scenarioC]
    norm_num
  exact ⟨h, C4_roundtrip 1920 1080 defaultTableDimensions 40 ⟨123, 45⟩ h⟩

/-- Counterexample for C4 as stated: with screen 10000 x (80 + 29/50000),
default table and padding 40, the scale is 1/1000000 — nonzero — yet the
forward matrix's determinant 1e-12 falls below the polyfill inverse's
1e-10 cutoff, the inverse throws (none here), and the round trip does not
return the point. -/
theorem C4_roundtrip_counterexample :
    getScale 10000 (80 + 29 / 50000) defaultTableDimensions 40 ≠ 0 ∧
    screenToTable 10000 (80 + 29 / 50000) defaultTableDimensions 40
      (tableToScreen 10000 (80 + 29 / 50000) defaultTableDimensions 40
        ⟨0, 0⟩) = none := by
  have hscale : getScale 10000 (80 + 29 / 50000) defaultTableDimensions 40 =
      1 / 1000000 := by
    rw [getScale]
    rw [if_neg (by norm_num [isPortrait])]
    simp only [getTotalTableDimensions, defaultTableDimensions]
    rw [min_def]
    norm_num
  constructor
  · rw [hscale]
    norm_num
  · rw [screenToTable, getInverseTransform, DOMMatrix.inverse,
      if_pos (by rw [getTransform_det, hscale, abs_of_nonneg (by norm_num)]; norm_num)]
    rfl

/-- C5: a screen at least as tall as wide... precisely: whenever
screenHeight <= screenWidth (ties included) the orientation is landscape
and scale and translation use totalWidth = tableWidth + 2 railWidth
against the screen width and totalHeight = tableHeight + 2 railWidth
against the screen height, the translation centering the scaled total
table; when screenWidth < screenHeight the two totals swap roles.
Concretely, for screen 1920x1080, table 1000x500, railWidth 40, padding
40: landscape, scale exactly 46/27 (about 1.7037) and translation exactly
(40, 1240/27) (about (40, 45.93), i.e. approximately (40, 46)). -/
theorem C5_orientation_scale_translation :
    (∀ (screenWidth screenHeight : ℚ) (td : TableDimensions) (padding : ℚ),
      screenHeight ≤ screenWidth →
      isPortrait screenWidth screenHeight = false ∧
      getScale screenWidth screenHeight td padding =
        min ((screenWidth - 2 * padding) / (td.width + 2 * td.railWidth))
          ((screenHeight - 2 * padding) / (td.height + 2 * td.railWidth)) ∧
      getTranslation screenWidth screenHeight td padding =
        ⟨(screenWidth - (td.width + 2 * td.railWidth) *
            getScale screenWidth screenHeight td padding) / 2,
         (screenHeight - (td.height + 2 * td.railWidth) *
            getScale screenWidth screenHeight td padding) / 2⟩) ∧
    (∀ (screenWidth screenHeight : ℚ) (td : TableDimensions) (padding : ℚ),
      screenWidth < screenHeight →
      isPortrait screenWidth screenHeight = true ∧
      getScale screenWidth screenHeight td padding =
        min ((screenWidth - 2 * padding) / (td.height + 2 * td.railWidth))
          ((screenHeight - 2 * padding) / (td.width + 2 * td.railWidth)) ∧
      getTranslation screenWidth screenHeight td padding =
        ⟨(screenWidth - (td.height + 2 * td.railWidth) *
            getScale screenWidth screenHeight td padding) / 2,
         (screenHeight - (td.width + 2 * td.railWidth) *
            getScale screenWidth screenHeight td padding) / 2⟩) ∧
    (isPortrait 1920 1080 = false ∧
      getScale 1920 1080 defaultTableDimensions 40 = 46 / 27 ∧
      getTranslation 1920 1080 defaultTableDimensions 40 =
        ⟨40, 1240 / 27⟩ ∧
      |(46 : ℚ) / 27 - 17037 / 10000| < 1 / 10 ^ 4 ∧
      |(1240 : ℚ) / 27 - 46| < 1 / 10) := by
  have hland : ∀ (screenWidth screenHeight : ℚ), screenHeight ≤ screenWidth →
      isPortrait screenWidth screenHeight = false := by
    intro sw sh hle
    simp [isPortrait, not_lt.mpr hle]
  refine ⟨?_, ?_, ?_⟩
  · intro sw sh td padding hle
    have hp := hland sw sh hle
    refine ⟨hp, ?_, ?_⟩
    · rw [getScale, hp]
      simp [getTotalTableDimensions]
    · rw [getTranslation, hp]
      simp [getTotalTableDimensions]
  · intro sw sh td padding hlt
    have hp : isPortrait sw sh = true := by simp [isPortrait, hlt]
    refine ⟨hp, ?_, ?_⟩
    · rw [getScale, hp]
      simp [getTotalTableDimensions]
    · rw [getTranslation, hp]
      simp [getTotalTableDimensions]
  · refine ⟨hland 1920 1080 (by norm_num), getScale_scenarioC, ?_, ?_, ?_⟩
    · rw [getTranslation]
      rw [if_neg (by norm_num [isPortrait])]
      rw [getScale_scenarioC]
      simp only [getTotalTableDimensions, defaultTableDimensions,
        Vec2.mk.injEq]
      norm_num
    · rw [abs_of_nonneg (by norm_num)]
      norm_num
    · rw [abs_of_neg (by norm_num)]
      norm_num

/-- Witness for C5 in landscape scenario C: screen 1920x1080 is landscape
with scale min(1840/1080, 1000/580) = 46/27. -/
theorem C5_orientation_scale_translation_witness :
    ((1080 : ℚ) ≤ 1920) ∧
    isPortrait 1920 1080 = false ∧
    getScale 1920 1080 defaultTableDimensions 40 =
      min ((1920 - 2 * 40) / (1000 + 2 * 40))
        ((1080 - 2 * 40) / (500 + 2 * 40)) := by
  have hle : (1080 : ℚ) ≤ 1920 := by norm_num
  have h := C5_orientation_scale_translation.1 1920 1080
    defaultTableDimensions 40 hle
  exact ⟨hle, h.1, h.2.1⟩

/-- C6: the canonical createPockets yields exactly six pockets — the four
corner pockets exactly on the playing-surface corners (zero corner inset)
and the two side pockets at the midpoints of the long edges pushed beyond
the edge by 0.607 x radius — and setDimensions recomputes the pockets
together with the dimensions it stores. -/
theorem C6_createPockets (width height pocketRadius railWidth : ℚ)
    (s : TableState) :
    (createPockets width height pocketRadius).length = 6 ∧
    createPockets width height pocketRadius =
      [⟨0, 0, pocketRadius⟩, ⟨width, 0, pocketRadius⟩,
       ⟨0, height, pocketRadius⟩, ⟨width, height, pocketRadius⟩,
       ⟨width / 2, -(607 / 1000 * pocketRadius), pocketRadius⟩,
       ⟨width / 2, height + 607 / 1000 * pocketRadius, pocketRadius⟩] ∧
    (setDimensions width height pocketRadius railWidth s).dimensions =
      ⟨width, height, pocketRadius, railWidth,
        createPockets width height pocketRadius⟩ := by
  refine ⟨rfl, ?_, rfl⟩
  simp only [createPockets, Pocket.mk.injEq, List.cons.injEq,
    List.nil_eq, and_true]
  norm_num
  ring

end Billiards
